import Mathlib

/-!
# gin-healthz: a health-aggregation registry

A shallow embedding of `healthz.go` (package `api`).

Modelling conventions.

* `Status` is Go's `type Status int`; it is an `Int` here.  No arithmetic is done on
  a status, only comparisons with the three constants, so the width of `int` plays no role.
* Go maps are finite maps with unique keys, `AList`; a `nil` map is `none`.
* `*Component` pointers are addresses into a component store (`heap`), `next` is the first
  unused address, so that `&Component{...}` allocates at `next`.
* A monitor function `func(h *Healthz, d *Component) Status` is a function of the state it can
  reach through its arguments (the exported fields of the registry and the components), the
  type `View`.  It either returns a status or panics, and leaves a state behind in both cases.
  A panic carries what `recover()` will return for it: `nil` for `panic(nil)` under the Go
  semantics before 1.21 (or with `GODEBUG=panicnil=1`), a value otherwise.
  A monitor function does not register checks and does not run the handler.
* `time.Now()` is a parameter (`now`, and in a pass a clock indexed by the check's name).
* Go does not fix the iteration order of `range` over a map: the handler takes the order in
  which the keys are visited as a parameter.
* The logger is an external collaborator; a log call has no effect on the state, and
  `logger.Panicf` panics.
* The files are explicit state, a map from paths to bytes; which of `os.OpenFile`,
  `ioutil.ReadAll` and `f.Write` fail, and what `uuid.New()` returns, are parameters.
-/

namespace GinHealthz

/-! ## Status -/

/-- `type Status int`. -/
abbrev Status := Int

/-- `StatusPass Status = iota`. -/
def StatusPass : Status := 0
/-- Second constant of the `iota` block. -/
def StatusFail : Status := 1
/-- Third constant of the `iota` block. -/
def StatusWarning : Status := 2

/-- `func (s Status) String() string`. -/
def Status.String (s : Status) : String :=
  if s = StatusPass then "pass"
  else if s = StatusFail then "fail"
  else if s = StatusWarning then "warn"
  else "unknown"

/-! ## Data model -/

/-- A `time.Time`; the zero time is `0`. -/
abbrev Timestamp := Nat

/-- `type Component struct`; `Typ` is the field `Type`. -/
structure Component where
  Typ : String
  Name : String
  Status : String
  Check : String
  Time : Timestamp

/-- A `*Component`. -/
abbrev Ptr := Nat

/-- `type MapMetadata map[string]string`. -/
abbrev MapMetadata := AList (fun _ : String => String)
/-- `type MapComponent map[string]*Component`. -/
abbrev MapComponent := AList (fun _ : String => Ptr)

/-- The state a monitor function reaches through `(h *Healthz, d *Component)`: the exported
fields of `Healthz` and the component store. -/
structure View where
  Status : String
  Metadata : Option MapMetadata
  Notes : List String
  Details : Option MapComponent
  heap : Ptr → Component
  next : Ptr

/-- How a call of a monitor function ends.  In `panic r v`, `r` is what `recover()` returns
in a deferred function: `none` is `nil`. -/
inductive Outcome where
  | ret (s : Status) (v : View)
  | panic (r : Option String) (v : View)

/-- `type HealthMonitorFunc func(h *Healthz, d *Component) Status`. -/
abbrev HealthMonitorFunc := View → Ptr → Outcome

/-- `type CheckFunc func() Status`: a closure over the registry; `now` is what `time.Now()`
returns when the closure reads it. -/
abbrev CheckFunc := Timestamp → View → Status × View

/-- `type MapCheckFunc map[string]CheckFunc`. -/
abbrev MapCheckFunc := AList (fun _ : String => CheckFunc)

/-- `type HealthzConfig struct`. -/
structure HealthzConfig where
  Version : String
  Release : String
  Description : String
  ServiceFile : String
  NotesCount : Int

/-- `type Healthz struct`: the exported fields (in `View`) and the unexported `checks`, `config`. -/
structure Healthz extends View where
  checks : Option MapCheckFunc
  config : HealthzConfig

/-! ## Operations -/

/-- `func (h *Healthz) Note(s ...string)`. -/
def Note (v : View) (s : List String) : View :=
  { v with Notes := v.Notes ++ [String.intercalate " " s] }

/-- The assignment `d.Status = st`. -/
def setStatus (v : View) (d : Ptr) (st : String) : View :=
  { v with heap := Function.update v.heap d { v.heap d with Status := st } }

/-- The assignment `d.Time = t`. -/
def setTime (v : View) (d : Ptr) (t : Timestamp) : View :=
  { v with heap := Function.update v.heap d { v.heap d with Time := t } }

/-- `func CheckFuncHelper(f HealthMonitorFunc, h *Healthz, d *Component) CheckFunc`.
The named result `s` starts as `StatusFail`; when `f` panics the deferred function runs with
that `s` and stops the panic by calling `recover()`, and its body is under the guard
`r != nil`; otherwise `s` is what `f` returned. -/
def CheckFuncHelper (f : HealthMonitorFunc) (d : Ptr) : CheckFunc := fun now v =>
  let s := StatusFail
  match f v d with
  | .panic r v1 =>
    if r ≠ none then
      let v2 := Note v1 ["Recovered from a panic caused by HealthMonitor", (v1.heap d).Name]
      let v3 := setStatus v2 d (Status.String s)
      let v4 := setTime v3 d now
      (s, v4)
    else
      (s, v1)
  | .ret r v1 =>
    let s := r
    (s, setStatus v1 d (Status.String s))

/-- `func (h *Healthz) AddCheck(t, s string, f HealthMonitorFunc)`. -/
def AddCheck (h : Healthz) (t s : String) (f : HealthMonitorFunc) : Healthz :=
  let checks : MapCheckFunc := h.checks.getD ∅
  let details : MapComponent := h.Details.getD ∅
  let p : Ptr := h.next
  { h with
    Details := some (details.insert s p)
    heap := Function.update h.heap p
      { Typ := t, Name := s, Status := "", Check := "", Time := 0 }
    next := p + 1
    checks := some (checks.insert s (CheckFuncHelper f p)) }

/-- One call of a check during a pass, as observed from outside: which check, the state
it was called in, and what it returned. -/
structure Invocation where
  name : String
  before : View
  result : Status

/-- The variables of the loop of `HealthzHandler`, and the calls made so far. -/
structure LoopState where
  status : Status
  v : View
  trace : List Invocation

/-- The body of the `if` in the loop: `status = s` when
`(s == StatusFail) || (s == StatusWarning && status != StatusFail)`. -/
def rollupStep (status s : Status) : Status :=
  if s = StatusFail ∨ (s = StatusWarning ∧ status ≠ StatusFail) then s else status

/-- The loop `for c, check := range h.checks`, over the keys in the order `order`. -/
def runChecks (checks : Option MapCheckFunc) (clock : String → Timestamp) :
    List String → LoopState → LoopState
  | [], st => st
  | c :: rest, st =>
    match (checks.getD ∅).lookup c with
    | none => runChecks checks clock rest st
    | some check =>
      let (s, v1) := check (clock c) st.v
      let v2 := Note v1 [c ++ " " ++ Status.String s]
      runChecks checks clock rest
        { status := rollupStep st.status s, v := v2,
          trace := st.trace ++ [{ name := c, before := st.v, result := s }] }

/-- `http.StatusOK`. -/
def StatusOK : Nat := 200
/-- `http.StatusConflict`. -/
def StatusConflict : Nat := 409

/-- The loop of `HealthzHandler` run from its initial values, `status := StatusPass`. -/
def loopResult (h : Healthz) (order : List String) (clock : String → Timestamp) : LoopState :=
  runChecks h.checks clock order { status := StatusPass, v := h.toView, trace := [] }

/-- The results of the checks of a pass, in the order they were called. -/
def passResults (h : Healthz) (order : List String) (clock : String → Timestamp) : List Status :=
  (loopResult h order clock).trace.map Invocation.result

/-- `func HealthzHandler(h *Healthz, c *gin.Context)`.  The result is what `c.JSON` is given,
the status code and the registry; slicing `h.Notes[:NotesCount]` with a negative bound is a
run-time panic. -/
def HealthzHandler (h : Healthz) (order : List String) (clock : String → Timestamp) :
    Except String (Nat × Healthz) :=
  let st := loopResult h order clock
  let httpStatus := if st.status ≠ StatusPass then StatusConflict else StatusOK
  if (st.v.Notes.length : Int) > h.config.NotesCount then
    if h.config.NotesCount < 0 then
      .error "slice bounds out of range"
    else
      let v1 := { st.v with Notes := st.v.Notes.take h.config.NotesCount.toNat }
      .ok (httpStatus, { h with toView := { v1 with Status := Status.String st.status } })
  else
    .ok (httpStatus, { h with toView := { st.v with Status := Status.String st.status } })

/-- The status the loop ends with on a list of results, starting from `StatusPass`. -/
def rollup (results : List Status) : Status :=
  results.foldl rollupStep StatusPass

/-- Spec: the severity order Fail > Warning > Pass. -/
def severity (s : Status) : Nat :=
  if s = StatusFail then 2 else if s = StatusWarning then 1 else 0

/-- The keys of a Go map, none for a `nil` map. -/
def mapKeys {α : Type} (m : Option (AList (fun _ : String => α))) : List String :=
  (m.getD ∅).keys

/-- The lookup `m[k]` with its `ok` flag, in a Go map that may be `nil`. -/
def mapGet {α : Type} (m : Option (AList (fun _ : String => α))) (k : String) : Option α :=
  (m.getD ∅).lookup k

/-- The note the deferred function of `CheckFuncHelper` writes for a component named `n`. -/
def recoveryNote (n : String) : String :=
  String.intercalate " " ["Recovered from a panic caused by HealthMonitor", n]

/-- A check only appends to `Notes`: the notes it finds stay in front. -/
def AppendsNotes (check : CheckFunc) : Prop :=
  ∀ now v, ∃ added, (check now v).2.Notes = v.Notes ++ added

/-- The note of the loop for one call, `fmt.Sprintf("%s %s", c, s)`. -/
def noteOf (i : Invocation) : String :=
  i.name ++ " " ++ Status.String i.result

/-- A monitor function returns, and leaves Notes as it found them. -/
def Quiet (f : HealthMonitorFunc) (d : Ptr) : Prop :=
  ∀ v, ∃ s v', f v d = .ret s v' ∧ v'.Notes = v.Notes

/-- A monitor function, whether it returns or panics, leaves the Details map and the Name
of every component as it found them. -/
def KeepsNames (f : HealthMonitorFunc) (d : Ptr) : Prop :=
  ∀ v, ∃ v', ((∃ r, f v d = .panic r v') ∨ ∃ s, f v d = .ret s v') ∧
    v'.Details = v.Details ∧ ∀ p, (v'.heap p).Name = (v.heap p).Name

/-- The names with a callable are the names with a record, and the record of a name
carries that name. -/
def Consistent (h : Healthz) : Prop :=
  (∀ n, n ∈ mapKeys h.checks ↔ n ∈ mapKeys h.Details) ∧
  ∀ n p, mapGet h.Details n = some p → (h.heap p).Name = n

/-- The bound check of the slice expression `s[:k]` on a slice of capacity `cap`. -/
def sliceBoundValid (cap : Nat) (k : Int) : Prop :=
  0 ≤ k ∧ k ≤ cap

/-! ## Metadata -/

/-- `func (h *Healthz) Set(k, v string)`. -/
def Healthz.Set (h : Healthz) (k v : String) : Healthz :=
  let m : MapMetadata :=
    match h.Metadata with
    | none => ∅
    | some m => m
  { h with Metadata := some (m.insert k v) }

/-- `func (h *Healthz) Get(k string) string`. -/
def Healthz.Get (h : Healthz) (k : String) : String :=
  match h.Metadata with
  | none => ""
  | some m =>
    match m.lookup k with
    | none => ""
    | some v => v

/-- `func (h *Healthz) Note(s ...string)` on the whole registry. -/
def Healthz.Note (h : Healthz) (s : List String) : Healthz :=
  { h with toView := GinHealthz.Note h.toView s }

/-! ## The persistent service identifier

The files are explicit state: a path has no file (`none`) or a file with its bytes.  Which
of the three file operations fail is a parameter, and so are the two values `uuid.New()`
returns. -/

/-- The files, by path. -/
abbrev Files := String → Option String

/-- Which file operations fail in a call: `os.OpenFile`, `ioutil.ReadAll` (after having
delivered the given number of bytes), `f.Write`. -/
structure Faults where
  openFails : Bool
  readFails : Option Nat
  writeFails : Bool

/-- No operation fails. -/
def noFaults : Faults := { openFails := false, readFails := none, writeFails := false }

/-- `strings.ReplaceAll(s, "-", "")`. -/
def removeDashes (s : String) : String :=
  String.mk (s.data.filter (fun c => c ≠ '-'))

/-- `func randomUUID(prefix string) string`; `u` is `uuid.New().String()`. -/
def randomUUID (pre u : String) : String :=
  let uid := removeDashes u
  pre ++ uid

/-- The first `n` bytes of `s`. -/
def firstBytes (s : String) (n : Nat) : String := String.mk (s.data.take n)

/-- The bytes of a file after `w` is written at offset `0`. -/
def writeAtStart (old w : String) : String := String.mk (w.data ++ old.data.drop w.data.length)

/-- `func PersistentServiceID(file string) string`.  A panic of `logger.Panicf` is an
error.  The error of `ioutil.ReadAll` is dropped by `b, _ := ...`, so a failed read gives
the bytes read before the failure; the last `else` is kept as it is written. -/
def PersistentServiceID (file : String) (u₁ u₂ : String) (ft : Faults) (fs : Files) :
    Except String (String × Files) :=
  if ft.openFails then
    .error "Healthz unable to open file"
  else
    let old : String := (fs file).getD ""
    let fs₁ : Files := Function.update fs file (some old)
    let b : String :=
      match ft.readFails with
      | none => old
      | some n => firstBytes old n
    if b.length = 0 then
      let service := randomUUID ("api" ++ removeDashes u₁) u₂
      if ft.writeFails then
        .error "Healthz unable to write to file"
      else
        .ok (service, Function.update fs₁ file (some (writeAtStart old service)))
    else if b.length > 0 then
      .ok (b, fs₁)
    else
      .error "Healthz unable to read file"

/-- `func NewHealthZ(c HealthzConfig) *Healthz`. -/
def NewHealthZ (c : HealthzConfig) (u₁ u₂ : String) (ft : Faults) (fs : Files) :
    Except String (Healthz × Files) :=
  match PersistentServiceID c.ServiceFile u₁ u₂ ft fs with
  | .error e => .error e
  | .ok (service, fs₁) =>
    let h : Healthz :=
      { Status := "", Metadata := none, Notes := [], Details := none,
        heap := fun _ => { Typ := "", Name := "", Status := "", Check := "", Time := 0 },
        next := 0, checks := none, config := c }
    .ok (h.Set "service_id" service, fs₁)

/-! ## Concrete registries, on which the model is evaluated -/

/-- The zero value `Component{}`. -/
def zeroComponent : Component :=
  { Typ := "", Name := "", Status := "", Check := "", Time := 0 }

/-- A configuration with the given `NotesCount`. -/
def configWith (k : Int) : HealthzConfig :=
  { Version := "1", Release := "r", Description := "", ServiceFile := "id", NotesCount := k }

/-- The registry `&Healthz{}` with `config` set, before any check is added. -/
def zeroHealthz (c : HealthzConfig) : Healthz :=
  { Status := "", Metadata := none, Notes := [], Details := none,
    heap := fun _ => zeroComponent, next := 0, checks := none, config := c }

/-- A monitor function that returns `StatusPass` and touches nothing. -/
def passMonitor : HealthMonitorFunc := fun v _ => .ret StatusPass v
/-- A monitor function that returns `StatusWarning` and touches nothing. -/
def warnMonitor : HealthMonitorFunc := fun v _ => .ret StatusWarning v
/-- A monitor function that returns `StatusFail` and touches nothing. -/
def failMonitor : HealthMonitorFunc := fun v _ => .ret StatusFail v
/-- A monitor function that panics at once, with a value: `panic("boom")`. -/
def panicMonitor : HealthMonitorFunc := fun v _ => .panic (some "boom") v
/-- A monitor function that panics at once with `panic(nil)`, where `recover()` returns
`nil` for it. -/
def nilPanicMonitor : HealthMonitorFunc := fun v _ => .panic none v
/-- A monitor function that sets the Name of its component to "renamed" and then panics with
a value. -/
def renameMonitor : HealthMonitorFunc := fun v d =>
  .panic (some "boom")
    { v with heap := Function.update v.heap d { v.heap d with Name := "renamed" } }
/-- A monitor function that writes to its component and then returns `StatusWarning`. -/
def scribbleMonitor : HealthMonitorFunc := fun v d =>
  .ret StatusWarning (setStatus v d "scribble")

/-- A clock for the examples. -/
def clock7 : String → Timestamp := fun _ => 7

/-- A monitor function that returns the integer 7, which is none of the constants. -/
def strangeMonitor : HealthMonitorFunc := fun v _ => .ret 7 v

/-- The registries obtained from an empty `Healthz` by calls of `AddCheck`, `Set`, `Note`. -/
inductive Reachable : Healthz → Prop where
  | zero (c : HealthzConfig) : Reachable (zeroHealthz c)
  | addCheck {h : Healthz} (t s : String) (f : HealthMonitorFunc) :
      Reachable h → Reachable (AddCheck h t s f)
  | set {h : Healthz} (k v : String) : Reachable h → Reachable (h.Set k v)
  | note {h : Healthz} (s : List String) : Reachable h → Reachable (h.Note s)

/-- No file at any path. -/
def noFiles : Files := fun _ => none

/-- One file, `id`, with the given bytes. -/
def oneFile (content : String) : Files := Function.update noFiles "id" (some content)

/-- A value of `uuid.New().String()`. -/
def uuidA : String := "123e4567-e89b-42d3-a456-426614174000"
/-- Another value of `uuid.New().String()`. -/
def uuidB : String := "9f8e7d6c-5b4a-4c3d-8e2f-0a1b2c3d4e5f"

/-! ## Lemmas -/

/-- The loop's status after a list of results, from any starting status. -/
theorem foldl_rollupStep (l : List Status) (init : Status) :
    l.foldl rollupStep init =
      if StatusFail ∈ l ∨ init = StatusFail then StatusFail
      else if StatusWarning ∈ l then StatusWarning else init := by
  induction l generalizing init with
  | nil => by_cases h : init = StatusFail <;> simp [h]
  | cons s l ih =>
    rw [List.foldl_cons, ih]
    by_cases h1 : s = StatusFail
    · simp [rollupStep, h1]
    · by_cases h2 : s = StatusWarning
      · subst h2
        by_cases h3 : init = StatusFail
        · simp [rollupStep, h1, h3]
        · simp [rollupStep, h1, h3, Ne.symm h1]
      · by_cases h3 : init = StatusFail
        · simp [rollupStep, h1, h2, h3, Ne.symm h1, Ne.symm h2]
        · simp [rollupStep, h1, h2, h3, Ne.symm h1, Ne.symm h2]

/-- The rollup is Fail if a result is Fail, else Warning if a result is Warning, else Pass. -/
theorem rollup_eq (l : List Status) :
    rollup l = if StatusFail ∈ l then StatusFail
      else if StatusWarning ∈ l then StatusWarning else StatusPass := by
  simp [rollup, foldl_rollupStep, StatusPass, StatusFail]

/-- The loop extends the trace, and its status is the fold of the results it added. -/
theorem runChecks_trace (checks : Option MapCheckFunc) (clock : String → Timestamp)
    (order : List String) (st : LoopState) :
    ∃ calls : List Invocation,
      (runChecks checks clock order st).trace = st.trace ++ calls ∧
      (runChecks checks clock order st).status =
        (calls.map Invocation.result).foldl rollupStep st.status := by
  induction order generalizing st with
  | nil => exact ⟨[], by simp [runChecks]⟩
  | cons c rest ih =>
    simp only [runChecks]
    cases hl : (checks.getD ∅).lookup c with
    | none => simpa using ih st
    | some check =>
      obtain ⟨calls, h1, h2⟩ := ih
        { status := rollupStep st.status (check (clock c) st.v).1,
          v := Note (check (clock c) st.v).2 [c ++ " " ++ Status.String (check (clock c) st.v).1],
          trace := st.trace ++ [{ name := c, before := st.v, result := (check (clock c) st.v).1 }] }
      refine ⟨{ name := c, before := st.v, result := (check (clock c) st.v).1 } :: calls, ?_, ?_⟩
      · simpa using h1
      · simpa using h2

/-- The status a pass ends with is the rollup of the results of its checks. -/
theorem loopResult_status (h : Healthz) (order : List String) (clock : String → Timestamp) :
    (loopResult h order clock).status = rollup (passResults h order clock) := by
  obtain ⟨calls, h1, h2⟩ := runChecks_trace h.checks clock order
    { status := StatusPass, v := h.toView, trace := [] }
  simp only [List.nil_append] at h1
  simp only [passResults, loopResult, rollup, h1, h2]

/-- With a non-negative `NotesCount` the handler returns, and this is what it returns. -/
theorem HealthzHandler_ok (h : Healthz) (order : List String) (clock : String → Timestamp)
    (hk : 0 ≤ h.config.NotesCount) :
    HealthzHandler h order clock =
      .ok (if (loopResult h order clock).status ≠ StatusPass then StatusConflict else StatusOK,
        { h with toView :=
          { (loopResult h order clock).v with
            Notes := (loopResult h order clock).v.Notes.take h.config.NotesCount.toNat
            Status := Status.String (loopResult h order clock).status } }) := by
  unfold HealthzHandler
  by_cases h1 : ((loopResult h order clock).v.Notes.length : Int) > h.config.NotesCount
  · have h2 : ¬ h.config.NotesCount < 0 := by omega
    simp only [h1, h2, if_true, if_false]
  · have h3 : (loopResult h order clock).v.Notes.length ≤ h.config.NotesCount.toNat := by omega
    simp only [h1, if_false, List.take_of_length_le h3]

/-- The recovery note is the fixed text, a space, and the name. -/
theorem recoveryNote_eq (n : String) :
    recoveryNote n = "Recovered from a panic caused by HealthMonitor " ++ n := by
  simp only [recoveryNote, String.intercalate, String.intercalate.go]
  rw [String.append_assoc]
  rfl

/-- Every call in the trace is a call of the check registered under its name. -/
theorem runChecks_calls (checks : Option MapCheckFunc) (clock : String → Timestamp)
    (order : List String) (st : LoopState) :
    ∀ i ∈ (runChecks checks clock order st).trace, i ∈ st.trace ∨
      ∃ check, mapGet checks i.name = some check ∧
        i.result = (check (clock i.name) i.before).1 := by
  induction order generalizing st with
  | nil => intro i hi; exact Or.inl hi
  | cons c rest ih =>
    intro i hi
    simp only [runChecks] at hi
    cases hl : (checks.getD ∅).lookup c with
    | none =>
      rw [hl] at hi
      exact ih st i hi
    | some check =>
      rw [hl] at hi
      rcases ih _ i hi with h1 | h1
      · simp only [List.mem_append, List.mem_singleton] at h1
        rcases h1 with h1 | h1
        · exact Or.inl h1
        · subst h1
          exact Or.inr ⟨check, hl, rfl⟩
      · exact Or.inr h1

/-- When every visited key is registered, the loop calls the checks in the order visited. -/
theorem runChecks_names (checks : Option MapCheckFunc) (clock : String → Timestamp)
    (order : List String) (st : LoopState) (hsub : ∀ c ∈ order, c ∈ mapKeys checks) :
    (runChecks checks clock order st).trace.map Invocation.name =
      st.trace.map Invocation.name ++ order := by
  induction order generalizing st with
  | nil => simp [runChecks]
  | cons c rest ih =>
    simp only [runChecks]
    cases hl : (checks.getD ∅).lookup c with
    | none =>
      have hc : c ∈ (checks.getD ∅) := AList.mem_keys.mpr (hsub c (List.mem_cons_self c rest))
      rw [← AList.lookup_isSome, hl] at hc
      exact absurd hc (by simp)
    | some check =>
      simp only []
      rw [ih _ (fun x hx => hsub x (List.mem_cons_of_mem c hx))]
      simp

/-- When the checks only append notes, the loop keeps the notes it found and the notes each
call left. -/
theorem runChecks_notes (checks : Option MapCheckFunc) (clock : String → Timestamp)
    (happ : ∀ c check, mapGet checks c = some check → AppendsNotes check)
    (order : List String) (st : LoopState) :
    (∃ added, (runChecks checks clock order st).v.Notes = st.v.Notes ++ added) ∧
    ∀ i ∈ (runChecks checks clock order st).trace, i ∈ st.trace ∨
      ∃ check added, mapGet checks i.name = some check ∧
        (runChecks checks clock order st).v.Notes =
          (check (clock i.name) i.before).2.Notes ++ added := by
  induction order generalizing st with
  | nil => exact ⟨⟨[], by simp [runChecks]⟩, fun i hi => Or.inl hi⟩
  | cons c rest ih =>
    simp only [runChecks]
    cases hl : (checks.getD ∅).lookup c with
    | none => exact ih st
    | some check =>
      simp only []
      obtain ⟨⟨a2, h2⟩, h3⟩ := ih
        { status := rollupStep st.status (check (clock c) st.v).1,
          v := Note (check (clock c) st.v).2 [c ++ " " ++ Status.String (check (clock c) st.v).1],
          trace := st.trace ++ [{ name := c, before := st.v, result := (check (clock c) st.v).1 }] }
      obtain ⟨a1, h1⟩ := happ c check hl (clock c) st.v
      refine ⟨⟨a1 ++ [String.intercalate " "
          [c ++ " " ++ Status.String (check (clock c) st.v).1]] ++ a2, ?_⟩, ?_⟩
      · rw [h2]
        simp only [Note, h1, List.append_assoc]
      · intro i hi
        rcases h3 i hi with h4 | h4
        · simp only [List.mem_append, List.mem_singleton] at h4
          rcases h4 with h4 | h4
          · exact Or.inl h4
          · subst h4
            refine Or.inr ⟨check, [String.intercalate " "
              [c ++ " " ++ Status.String (check (clock c) st.v).1]] ++ a2, hl, ?_⟩
            rw [h2]
            simp only [Note, List.append_assoc]
        · exact Or.inr h4

/-- The wrapper of a monitor function that only appends notes only appends notes. -/
theorem CheckFuncHelper_appends (f : HealthMonitorFunc) (d : Ptr)
    (hf : ∀ v, ∃ added, (∃ s v', f v d = .ret s v' ∧ v'.Notes = v.Notes ++ added) ∨
      (∃ r v', f v d = .panic r v' ∧ v'.Notes = v.Notes ++ added)) :
    AppendsNotes (CheckFuncHelper f d) := by
  intro now v
  obtain ⟨added, h | h⟩ := hf v
  · obtain ⟨s, v', h1, h2⟩ := h
    exact ⟨added, by simp [CheckFuncHelper, h1, setStatus, h2]⟩
  · obtain ⟨r, v', h1, h2⟩ := h
    cases r with
    | none => exact ⟨added, by simp [CheckFuncHelper, h1, h2]⟩
    | some r =>
      exact ⟨added ++ [String.intercalate " "
        ["Recovered from a panic caused by HealthMonitor", (v'.heap d).Name]],
        by simp [CheckFuncHelper, h1, setStatus, setTime, Note, h2]⟩

/-- What the wrapper returns and leaves when the monitor function panics with a value
that `recover()` returns. -/
theorem CheckFuncHelper_of_panic (f : HealthMonitorFunc) (d : Ptr) (now : Timestamp)
    (v v' : View) (r : String) (hp : f v d = .panic (some r) v') :
    CheckFuncHelper f d now v =
      (StatusFail, setTime (setStatus (Note v'
        ["Recovered from a panic caused by HealthMonitor", (v'.heap d).Name]) d "fail") d now) := by
  simp only [CheckFuncHelper, hp]
  rfl

/-- What the wrapper returns and leaves when `recover()` returns `nil` for the panic of the
monitor function: the panic is stopped, nothing is written. -/
theorem CheckFuncHelper_of_panic_nil (f : HealthMonitorFunc) (d : Ptr) (now : Timestamp)
    (v v' : View) (hp : f v d = .panic none v') :
    CheckFuncHelper f d now v = (StatusFail, v') := by
  simp only [CheckFuncHelper, hp]
  rfl

/-- The wrapper returns `StatusFail` whenever the monitor function panics. -/
theorem CheckFuncHelper_panic_result (f : HealthMonitorFunc) (d : Ptr) (now : Timestamp)
    (v v' : View) (r : Option String) (hp : f v d = .panic r v') :
    (CheckFuncHelper f d now v).1 = StatusFail := by
  cases r with
  | none => rw [CheckFuncHelper_of_panic_nil f d now v v' hp]
  | some r => rw [CheckFuncHelper_of_panic f d now v v' r hp]

/-- A fresh registry with one check added holds that check only. -/
theorem checks_of_single (c : HealthzConfig) (t n : String) (f : HealthMonitorFunc)
    (k : String) (check : CheckFunc)
    (hc : mapGet (AddCheck (zeroHealthz c) t n f).checks k = some check) :
    check = CheckFuncHelper f 0 := by
  by_cases hk : k = n
  · subst hk
    rw [mapGet, AddCheck] at hc
    simp only [Option.getD_some, AList.lookup_insert] at hc
    exact (Option.some.inj hc).symm
  · rw [mapGet, AddCheck] at hc
    simp only [Option.getD_some] at hc
    rw [AList.lookup_insert_ne hk] at hc
    simp [zeroHealthz] at hc

/-- The identifier `PersistentServiceID` generates is not empty. -/
theorem randomUUID_length (u₁ u₂ : String) :
    (randomUUID ("api" ++ removeDashes u₁) u₂).length ≠ 0 := by
  simp only [randomUUID, String.length_append]
  have : "api".length = 3 := rfl
  omega

/-- Writing at the start of an empty file leaves the bytes written. -/
theorem writeAtStart_empty (w : String) : writeAtStart "" w = w := by
  simp [writeAtStart]

/-- What `PersistentServiceID` does on a file with bytes, when no operation fails. -/
theorem PersistentServiceID_of_bytes (file u₁ u₂ c : String) (fs : Files)
    (hc : fs file = some c) (hlen : c.length ≠ 0) :
    PersistentServiceID file u₁ u₂ noFaults fs = .ok (c, fs) := by
  have hfs : Function.update fs file (some c) = fs := by
    rw [← hc]
    exact Function.update_eq_self file fs
  simp [PersistentServiceID, noFaults, hc, hlen, hfs, Nat.pos_of_ne_zero hlen]

/-- The rollup is one of the three constants. -/
theorem rollup_enum (l : List Status) :
    rollup l = StatusPass ∨ rollup l = StatusFail ∨ rollup l = StatusWarning := by
  rw [rollup_eq]
  by_cases h1 : StatusFail ∈ l
  · simp [h1]
  · by_cases h2 : StatusWarning ∈ l
    · simp [h1, h2]
    · simp [h1, h2]

/-- When every check wraps a quiet monitor function, the loop adds the note of each call it
makes, in the order of the calls, and nothing else. -/
theorem runChecks_quiet (checks : Option MapCheckFunc) (clock : String → Timestamp)
    (hq : ∀ c check, mapGet checks c = some check →
      ∃ f d, check = CheckFuncHelper f d ∧ Quiet f d)
    (order : List String) (st : LoopState) :
    ∃ calls : List Invocation,
      (runChecks checks clock order st).trace = st.trace ++ calls ∧
      (runChecks checks clock order st).v.Notes = st.v.Notes ++ calls.map noteOf := by
  induction order generalizing st with
  | nil => exact ⟨[], by simp [runChecks]⟩
  | cons c rest ih =>
    simp only [runChecks]
    cases hl : (checks.getD ∅).lookup c with
    | none => exact ih st
    | some check =>
      simp only []
      obtain ⟨f, d, hcheck, hquiet⟩ := hq c check hl
      obtain ⟨s, v', hf, hnotes⟩ := hquiet st.v
      have hkeep : (check (clock c) st.v).2.Notes = st.v.Notes := by
        rw [hcheck]
        simp [CheckFuncHelper, hf, setStatus, hnotes]
      obtain ⟨calls, h1, h2⟩ := ih
        { status := rollupStep st.status (check (clock c) st.v).1,
          v := Note (check (clock c) st.v).2 [c ++ " " ++ Status.String (check (clock c) st.v).1],
          trace := st.trace ++ [{ name := c, before := st.v, result := (check (clock c) st.v).1 }] }
      refine ⟨{ name := c, before := st.v, result := (check (clock c) st.v).1 } :: calls, ?_, ?_⟩
      · simpa using h1
      · rw [h2]
        simp [Note, hkeep, noteOf, String.intercalate, String.intercalate.go]

/-- The wrapper of a monitor function that keeps the Details map and the names keeps them. -/
theorem CheckFuncHelper_keeps (f : HealthMonitorFunc) (d : Ptr) (hf : KeepsNames f d)
    (now : Timestamp) (v : View) :
    (CheckFuncHelper f d now v).2.Details = v.Details ∧
    ∀ p, ((CheckFuncHelper f d now v).2.heap p).Name = (v.heap p).Name := by
  obtain ⟨v', hout, hd, hnm⟩ := hf v
  rcases hout with ⟨r, hout⟩ | ⟨s, hout⟩
  · cases r with
    | none =>
      rw [CheckFuncHelper_of_panic_nil f d now v v' hout]
      exact ⟨hd, hnm⟩
    | some r =>
      rw [CheckFuncHelper_of_panic f d now v v' r hout]
      refine ⟨by simp [setTime, setStatus, Note, hd], ?_⟩
      intro p
      by_cases hp : p = d
      · subst hp
        simp [setTime, setStatus, Note, hnm]
      · simp [setTime, setStatus, Note, Function.update_noteq hp, hnm]
  · refine ⟨by simp [CheckFuncHelper, hout, setStatus, hd], ?_⟩
    intro p
    by_cases hp : p = d
    · subst hp
      simp [CheckFuncHelper, hout, setStatus, hnm]
    · simp [CheckFuncHelper, hout, setStatus, Function.update_noteq hp, hnm]

/-- When every check wraps a monitor function that keeps the Details map and the names, the
loop keeps them. -/
theorem runChecks_keeps (checks : Option MapCheckFunc) (clock : String → Timestamp)
    (hk : ∀ c check, mapGet checks c = some check →
      ∃ f d, check = CheckFuncHelper f d ∧ KeepsNames f d)
    (order : List String) (st : LoopState) :
    (runChecks checks clock order st).v.Details = st.v.Details ∧
    ∀ p, ((runChecks checks clock order st).v.heap p).Name = (st.v.heap p).Name := by
  induction order generalizing st with
  | nil => exact ⟨rfl, fun _ => rfl⟩
  | cons c rest ih =>
    simp only [runChecks]
    cases hl : (checks.getD ∅).lookup c with
    | none => exact ih st
    | some check =>
      simp only []
      obtain ⟨f, d, hcheck, hkeep⟩ := hk c check hl
      have h0 := CheckFuncHelper_keeps f d hkeep (clock c) st.v
      rw [← hcheck] at h0
      obtain ⟨h1, h2⟩ := ih
        { status := rollupStep st.status (check (clock c) st.v).1,
          v := Note (check (clock c) st.v).2 [c ++ " " ++ Status.String (check (clock c) st.v).1],
          trace := st.trace ++ [{ name := c, before := st.v, result := (check (clock c) st.v).1 }] }
      refine ⟨?_, ?_⟩
      · rw [h1]
        exact h0.1
      · intro p
        rw [h2]
        exact h0.2 p

/-- A reachable registry is consistent, and its records lie below the next free address. -/
theorem Reachable_inv (h : Healthz) (hr : Reachable h) :
    Consistent h ∧ ∀ n p, mapGet h.Details n = some p → p < h.next := by
  induction hr with
  | zero c =>
    refine ⟨⟨fun n => by simp [mapKeys, zeroHealthz], ?_⟩, ?_⟩
    · intro n p hp
      simp [mapGet, zeroHealthz] at hp
    · intro n p hp
      simp [mapGet, zeroHealthz] at hp
  | @addCheck h t s f _ ih =>
    obtain ⟨⟨hkeys, hname⟩, hlt⟩ := ih
    have hother : ∀ n p, n ≠ s → mapGet (AddCheck h t s f).Details n = some p →
        mapGet h.Details n = some p := by
      intro n p hn hp
      simpa [mapGet, AddCheck, AList.lookup_insert_ne hn] using hp
    have hself : ∀ p, mapGet (AddCheck h t s f).Details s = some p → p = h.next := by
      intro p hp
      simpa [mapGet, AddCheck, AList.lookup_insert, eq_comm] using hp
    refine ⟨⟨?_, ?_⟩, ?_⟩
    · intro n
      have := hkeys n
      simp only [mapKeys] at this
      simp only [mapKeys, AddCheck, Option.getD_some, ← AList.mem_keys, AList.mem_insert]
      rw [AList.mem_keys, AList.mem_keys, this]
    · intro n p hp
      by_cases hn : n = s
      · subst hn
        rw [hself p hp]
        simp [AddCheck]
      · have hp' := hother n p hn hp
        have hne : p ≠ h.next := Nat.ne_of_lt (hlt n p hp')
        simp only [AddCheck, Function.update_noteq hne]
        exact hname n p hp'
    · intro n p hp
      by_cases hn : n = s
      · subst hn
        rw [hself p hp]
        exact Nat.lt_succ_self _
      · exact Nat.lt_succ_of_lt (hlt n p (hother n p hn hp))
  | set k v _ ih => exact ih
  | note s _ ih => exact ih

/-! ## The claims -/

/-- C1: for check results drawn from Pass, Fail, Warning, the status the loop of
`HealthzHandler` ends with is their maximum in the severity order Fail > Warning > Pass: it is
one of the results and no result is more severe.  It is Pass when there are no results, and a
pass with these results writes its `String()` into the Status field of the report. -/
theorem rollup_is_max_severity (results : List Status)
    (henum : ∀ s ∈ results, s = StatusPass ∨ s = StatusFail ∨ s = StatusWarning) :
    (results ≠ [] → rollup results ∈ results) ∧
    (∀ s ∈ results, severity s ≤ severity (rollup results)) ∧
    (results = [] → rollup results = StatusPass) ∧
    (∀ (h : Healthz) (order : List String) (clock : String → Timestamp),
      0 ≤ h.config.NotesCount → passResults h order clock = results →
      ∃ code h', HealthzHandler h order clock = .ok (code, h') ∧
        h'.Status = Status.String (rollup results)) := by
  refine ⟨?_, ?_, ?_, ?_⟩
  · intro hne
    rw [rollup_eq]
    by_cases hf : StatusFail ∈ results
    · simp [hf]
    · by_cases hw : StatusWarning ∈ results
      · simp [hf, hw]
      · simp only [hf, hw, if_false]
        obtain ⟨s, hs⟩ := List.exists_mem_of_ne_nil results hne
        rcases henum s hs with h1 | h1 | h1
        · exact h1 ▸ hs
        · exact absurd (h1 ▸ hs) hf
        · exact absurd (h1 ▸ hs) hw
  · intro s hs
    rw [rollup_eq]
    rcases henum s hs with h1 | h1 | h1
    · subst h1
      exact Nat.zero_le _
    · subst h1
      rw [if_pos hs]
    · subst h1
      by_cases hf : StatusFail ∈ results
      · rw [if_pos hf]
        decide
      · rw [if_neg hf, if_pos hs]
  · intro h; subst h; rfl
  · intro h order clock hk hres
    refine ⟨_, _, HealthzHandler_ok h order clock hk, ?_⟩
    simp only [loopResult_status, hres]

/-- C1 on the results Warning, Pass, Fail, Warning, and on a registry with one check. -/
theorem rollup_is_max_severity_witness :
    rollup [StatusWarning, StatusPass, StatusFail, StatusWarning] = StatusFail ∧
    rollup [StatusWarning, StatusPass, StatusFail, StatusWarning]
      ∈ [StatusWarning, StatusPass, StatusFail, StatusWarning] ∧
    (∃ code h', HealthzHandler (AddCheck (zeroHealthz (configWith 3)) "db" "x" warnMonitor)
        ["x"] clock7 = .ok (code, h') ∧ h'.Status = "warn") :=
  ⟨by decide,
   (rollup_is_max_severity [StatusWarning, StatusPass, StatusFail, StatusWarning]
      (by decide)).1 (by decide),
   (rollup_is_max_severity [StatusWarning] (by decide)).2.2.2
      (AddCheck (zeroHealthz (configWith 3)) "db" "x" warnMonitor) ["x"] clock7
      (by decide) rfl⟩

/-- C2, as stated, fails.  A monitor function that panics with `panic(nil)`, for which
`recover()` returns `nil`, is stopped by the wrapper, which returns `StatusFail` but writes
no note, no Status and no Time, because the body of the deferred function is under
`r != nil`.  And a monitor function that renames its component before it panics gets the
note with the new name: called on the component registered as "x", the wrapper writes
"Recovered from a panic caused by HealthMonitor renamed". -/
theorem wrapper_silent_on_nil_panic :
    (∀ v d, nilPanicMonitor v d = .panic none v) ∧
    (CheckFuncHelper nilPanicMonitor 0 7
      (AddCheck (zeroHealthz (configWith 3)) "db" "x" nilPanicMonitor).toView).1 = StatusFail ∧
    (CheckFuncHelper nilPanicMonitor 0 7
      (AddCheck (zeroHealthz (configWith 3)) "db" "x" nilPanicMonitor).toView).2.Notes = [] ∧
    ((CheckFuncHelper nilPanicMonitor 0 7
      (AddCheck (zeroHealthz (configWith 3)) "db" "x" nilPanicMonitor).toView).2.heap 0).Status
      = "" ∧
    ((CheckFuncHelper nilPanicMonitor 0 7
      (AddCheck (zeroHealthz (configWith 3)) "db" "x" nilPanicMonitor).toView).2.heap 0).Time
      = 0 ∧
    ((AddCheck (zeroHealthz (configWith 3)) "db" "x" renameMonitor).heap 0).Name = "x" ∧
    (CheckFuncHelper renameMonitor 0 7
      (AddCheck (zeroHealthz (configWith 3)) "db" "x" renameMonitor).toView).2.Notes =
      ["Recovered from a panic caused by HealthMonitor renamed"] ∧
    "Recovered from a panic caused by HealthMonitor x" ∉
      (CheckFuncHelper renameMonitor 0 7
        (AddCheck (zeroHealthz (configWith 3)) "db" "x" renameMonitor).toView).2.Notes :=
  ⟨fun _ _ => rfl, rfl, rfl, rfl, rfl, rfl, rfl, by decide⟩

/-- C2, amended: when the monitor function `f` panics with a value that `recover()` returns
(not `nil`), leaving the component `d` with the Name `n`, the wrapped check
`CheckFuncHelper f d` does not panic: it returns `StatusFail`, appends exactly the one note
"Recovered from a panic caused by HealthMonitor n" to the Notes `f` left, sets the Status of
`d` to "fail" and its Time to the current time, and leaves its Name, the other components
and the maps of the registry as `f` left them; `n` is the name `d` had at the call when `f`
did not change it.  When `recover()` returns `nil` for the panic, the wrapper returns
`StatusFail` and leaves everything as the monitor function left it. -/
theorem CheckFuncHelper_panic (f : HealthMonitorFunc) (d : Ptr) (now : Timestamp)
    (v v' : View) (r n : String) (hp : f v d = .panic (some r) v')
    (hn : (v'.heap d).Name = n) :
    (CheckFuncHelper f d now v).1 = StatusFail ∧
    (CheckFuncHelper f d now v).2.Notes =
      v'.Notes ++ ["Recovered from a panic caused by HealthMonitor " ++ n] ∧
    ((CheckFuncHelper f d now v).2.heap d).Status = "fail" ∧
    ((CheckFuncHelper f d now v).2.heap d).Time = now ∧
    ((CheckFuncHelper f d now v).2.heap d).Name = n ∧
    (∀ p, p ≠ d → (CheckFuncHelper f d now v).2.heap p = v'.heap p) ∧
    (CheckFuncHelper f d now v).2.Details = v'.Details ∧
    (CheckFuncHelper f d now v).2.Metadata = v'.Metadata ∧
    ((v'.heap d).Name = (v.heap d).Name → n = (v.heap d).Name) ∧
    (∀ (g : HealthMonitorFunc) (w w' : View), g w d = .panic none w' →
      CheckFuncHelper g d now w = (StatusFail, w')) := by
  subst hn
  rw [CheckFuncHelper_of_panic f d now v v' r hp]
  refine ⟨rfl, ?_, ?_, ?_, ?_, ?_, rfl, rfl, fun h => h, ?_⟩
  · simp only [setTime, setStatus, Note]
    rw [← recoveryNote_eq, recoveryNote]
  · simp only [setTime, setStatus, Function.update_same]
  · simp only [setTime, Function.update_same]
  · simp only [setTime, setStatus, Note, Function.update_same]
  · intro p hp
    simp only [setTime, setStatus, Note, Function.update_noteq hp]
  · intro g w w' hg
    exact CheckFuncHelper_of_panic_nil g d now w w' hg

/-- C2, amended, on a monitor function that panics at once with a value, called on the
component registered as "x". -/
theorem CheckFuncHelper_panic_witness :
    (CheckFuncHelper panicMonitor 0 7
      (AddCheck (zeroHealthz (configWith 3)) "db" "x" panicMonitor).toView).1 = StatusFail ∧
    (CheckFuncHelper panicMonitor 0 7
      (AddCheck (zeroHealthz (configWith 3)) "db" "x" panicMonitor).toView).2.Notes =
      [] ++ ["Recovered from a panic caused by HealthMonitor " ++ "x"] ∧
    ((CheckFuncHelper panicMonitor 0 7
      (AddCheck (zeroHealthz (configWith 3)) "db" "x" panicMonitor).toView).2.heap 0).Status
      = "fail" ∧
    ((CheckFuncHelper panicMonitor 0 7
      (AddCheck (zeroHealthz (configWith 3)) "db" "x" panicMonitor).toView).2.heap 0).Time = 7 ∧
    ((CheckFuncHelper panicMonitor 0 7
      (AddCheck (zeroHealthz (configWith 3)) "db" "x" panicMonitor).toView).2.heap 0).Name
      = "x" :=
  have h := CheckFuncHelper_panic panicMonitor 0 7
    (AddCheck (zeroHealthz (configWith 3)) "db" "x" panicMonitor).toView
    (AddCheck (zeroHealthz (configWith 3)) "db" "x" panicMonitor).toView "boom" "x" rfl rfl
  ⟨h.1, h.2.1, h.2.2.1, h.2.2.2.1, h.2.2.2.2.1⟩

/-- C3, as stated, fails: Notes is not reset at the start of a pass.  A registry with one check
"x" that passes and `NotesCount = 10` has the Notes `["x pass"]` after one pass and
`["x pass", "x pass"]` after the second pass over the same check with the same result. -/
theorem notes_not_reset :
    ∃ h₁ h₂, HealthzHandler (AddCheck (zeroHealthz (configWith 10)) "db" "x" passMonitor)
        ["x"] clock7 = .ok (StatusOK, h₁) ∧
      HealthzHandler h₁ ["x"] clock7 = .ok (StatusOK, h₂) ∧
      h₁.Notes = ["x pass"] ∧ h₂.Notes = ["x pass", "x pass"] ∧ h₂.Notes ≠ h₁.Notes :=
  ⟨_, _, rfl, rfl, rfl, rfl, by decide⟩

/-- C3, amended: a pass does not reset Notes.  When the checks only append notes and
`NotesCount >= 0`, the Notes of the report are the first `NotesCount` entries of the Notes
from before the pass followed by the notes added during the pass; so they depend on the
Notes before the pass, and once `NotesCount` notes are there a pass leaves them as they are. -/
theorem HealthzHandler_keeps_old_notes (h : Healthz) (order : List String)
    (clock : String → Timestamp) (hk : 0 ≤ h.config.NotesCount)
    (happ : ∀ c check, mapGet h.checks c = some check → AppendsNotes check) :
    ∃ code h' added, HealthzHandler h order clock = .ok (code, h') ∧
      (loopResult h order clock).v.Notes = h.Notes ++ added ∧
      h'.Notes = (h.Notes ++ added).take h.config.NotesCount.toNat ∧
      (h.config.NotesCount ≤ (h.Notes.length : Int) →
        h'.Notes = h.Notes.take h.config.NotesCount.toNat) := by
  obtain ⟨⟨added, h1⟩, -⟩ := runChecks_notes h.checks clock happ order
    { status := StatusPass, v := h.toView, trace := [] }
  have h2 : (loopResult h order clock).v.Notes = h.Notes ++ added := h1
  refine ⟨_, _, added, HealthzHandler_ok h order clock hk, h2, ?_, ?_⟩
  · simp only [h2]
  · intro h3
    simp only [h2]
    rw [List.take_append_of_le_length (by omega)]

/-- C3, amended, on a registry that holds one old note and `NotesCount = 1`: the note of
the pass is dropped, the old note stays. -/
theorem HealthzHandler_keeps_old_notes_witness :
    ∃ code h' added,
      HealthzHandler
        { AddCheck (zeroHealthz (configWith 1)) "db" "x" passMonitor with Notes := ["old"] }
        ["x"] clock7 = .ok (code, h') ∧
      (loopResult
        { AddCheck (zeroHealthz (configWith 1)) "db" "x" passMonitor with Notes := ["old"] }
        ["x"] clock7).v.Notes = ["old"] ++ added ∧
      h'.Notes = ["old"] := by
  obtain ⟨code, h', added, h1, h2, -, h3⟩ := HealthzHandler_keeps_old_notes
    { AddCheck (zeroHealthz (configWith 1)) "db" "x" passMonitor with Notes := ["old"] }
    ["x"] clock7 (by decide)
    (fun c check hc => by
      rw [checks_of_single (configWith 1) "db" "x" passMonitor c check hc]
      exact CheckFuncHelper_appends passMonitor 0
        (fun v => ⟨[], Or.inl ⟨StatusPass, v, rfl, by simp⟩⟩))
  exact ⟨code, h', added, h1, h2, h3 (by decide)⟩

/-- C4: with `NotesCount = k >= 0` and `L` the Notes after all checks of the pass have run,
`HealthzHandler` returns a report whose Notes are the first `min k |L|` elements of `L`, in
their order; they are at most `k`, and they are `L` itself when `|L| <= k`. -/
theorem HealthzHandler_truncates (h : Healthz) (order : List String)
    (clock : String → Timestamp) (hk : 0 ≤ h.config.NotesCount) :
    ∃ code h', HealthzHandler h order clock = .ok (code, h') ∧
      h'.Notes = (loopResult h order clock).v.Notes.take
        (min h.config.NotesCount.toNat (loopResult h order clock).v.Notes.length) ∧
      (h'.Notes.length : Int) ≤ h.config.NotesCount ∧
      (((loopResult h order clock).v.Notes.length : Int) ≤ h.config.NotesCount →
        h'.Notes = (loopResult h order clock).v.Notes) := by
  refine ⟨_, _, HealthzHandler_ok h order clock hk, ?_, ?_, ?_⟩
  · simp only []
    rcases Nat.le_total h.config.NotesCount.toNat (loopResult h order clock).v.Notes.length
      with h1 | h1
    · rw [Nat.min_eq_left h1]
    · rw [Nat.min_eq_right h1, List.take_length, List.take_of_length_le h1]
  · simp only [List.length_take]
    omega
  · intro h1
    simp only []
    exact List.take_of_length_le (by omega)

/-- C4 with `NotesCount = 1` and two notes written by the pass. -/
theorem HealthzHandler_truncates_witness :
    ∃ code h', HealthzHandler (AddCheck (zeroHealthz (configWith 1)) "db" "x" panicMonitor)
        ["x"] clock7 = .ok (code, h') ∧
      h'.Notes = (loopResult (AddCheck (zeroHealthz (configWith 1)) "db" "x" panicMonitor)
        ["x"] clock7).v.Notes.take (min 1 2) ∧
      h'.Notes = ["Recovered from a panic caused by HealthMonitor x"] := by
  obtain ⟨code, h', h1, h2, -, -⟩ := HealthzHandler_truncates
    (AddCheck (zeroHealthz (configWith 1)) "db" "x" panicMonitor) ["x"] clock7 (by decide)
  exact ⟨code, h', h1, h2, by rw [h2]; rfl⟩

/-- C5: a pass that completes (`NotesCount >= 0`) emits the status code 200 if and only if the
rolled-up status of the check results is Pass, and 409 otherwise. -/
theorem HealthzHandler_code (h : Healthz) (order : List String)
    (clock : String → Timestamp) (hk : 0 ≤ h.config.NotesCount) :
    ∃ code h', HealthzHandler h order clock = .ok (code, h') ∧
      (code = 200 ↔ rollup (passResults h order clock) = StatusPass) ∧
      (code = 409 ↔ rollup (passResults h order clock) ≠ StatusPass) ∧
      (code = 200 ∨ code = 409) := by
  refine ⟨_, _, HealthzHandler_ok h order clock hk, ?_⟩
  rw [loopResult_status]
  by_cases h1 : rollup (passResults h order clock) = StatusPass
  · simp [h1, StatusOK]
  · simp [h1, StatusConflict]

/-- C5 on a registry whose one check fails. -/
theorem HealthzHandler_code_witness :
    ∃ code h', HealthzHandler (AddCheck (zeroHealthz (configWith 3)) "db" "x" failMonitor)
        ["x"] clock7 = .ok (code, h') ∧ code = 409 := by
  obtain ⟨code, h', h1, -, h3, -⟩ := HealthzHandler_code
    (AddCheck (zeroHealthz (configWith 3)) "db" "x" failMonitor) ["x"] clock7 (by decide)
  exact ⟨code, h', h1, h3.2 (by decide)⟩

/-- C6: when the monitor function `f` returns the status `s` (any integer), the wrapped check
`CheckFuncHelper f d` returns `s` and leaves the Status of `d` equal to `s.String()`, whatever
`f` wrote there, and nothing else changed in what `f` left.  Hence a pass with
`NotesCount >= 0` over a registry whose one check, named `n`, wraps a monitor function that
returns Warning and leaves the Details map alone, reports the overall status "warn" and has
"warn" as the Status of `Details[n]`. -/
theorem CheckFuncHelper_returns (f : HealthMonitorFunc) (d : Ptr) (now : Timestamp)
    (v v' : View) (s : Status) (hr : f v d = .ret s v') :
    (CheckFuncHelper f d now v).1 = s ∧
    ((CheckFuncHelper f d now v).2.heap d).Status = Status.String s ∧
    (CheckFuncHelper f d now v).2 = setStatus v' d (Status.String s) ∧
    (∀ (g : HealthMonitorFunc) (h : Healthz) (t n : String) (clock : String → Timestamp),
      mapKeys h.checks = [] → 0 ≤ h.config.NotesCount →
      (∀ w p, ∃ w', g w p = .ret StatusWarning w' ∧ w'.Details = w.Details) →
      ∃ h' p, HealthzHandler (AddCheck h t n g) [n] clock = .ok (StatusConflict, h') ∧
        h'.Status = "warn" ∧ mapGet h'.Details n = some p ∧ (h'.heap p).Status = "warn") := by
  refine ⟨by simp [CheckFuncHelper, hr], by simp [CheckFuncHelper, hr, setStatus],
    by simp [CheckFuncHelper, hr], ?_⟩
  intro g h t n clock hkeys hk hg
  obtain ⟨w', hw1, hw2⟩ := hg (AddCheck h t n g).toView h.next
  have hlk : ((AddCheck h t n g).checks.getD ∅).lookup n = some (CheckFuncHelper g h.next) := by
    simp [AddCheck, AList.lookup_insert]
  have hloop : loopResult (AddCheck h t n g) [n] clock =
      { status := StatusWarning,
        v := Note (setStatus w' h.next "warn") [n ++ " " ++ "warn"],
        trace := [{ name := n, before := (AddCheck h t n g).toView, result := StatusWarning }] } := by
    simp only [loopResult, runChecks, hlk, CheckFuncHelper, hw1]
    rfl
  have hok := HealthzHandler_ok (AddCheck h t n g) [n] clock hk
  rw [hloop] at hok
  refine ⟨_, h.next, hok, rfl, ?_, ?_⟩
  · simp [mapGet, Note, setStatus, hw2, AddCheck, AList.lookup_insert]
  · simp [Note, setStatus]

/-- C6 on a monitor function that writes to the Status of its component before it returns. -/
theorem CheckFuncHelper_returns_witness :
    (CheckFuncHelper scribbleMonitor 0 7 (zeroHealthz (configWith 3)).toView).1
      = StatusWarning ∧
    ((CheckFuncHelper scribbleMonitor 0 7 (zeroHealthz (configWith 3)).toView).2.heap 0).Status
      = "warn" ∧
    ∃ h' p, HealthzHandler (AddCheck (zeroHealthz (configWith 3)) "db" "x" scribbleMonitor)
        ["x"] clock7 = .ok (StatusConflict, h') ∧
      h'.Status = "warn" ∧ mapGet h'.Details "x" = some p ∧ (h'.heap p).Status = "warn" :=
  ⟨(CheckFuncHelper_returns scribbleMonitor 0 7 (zeroHealthz (configWith 3)).toView
      (setStatus (zeroHealthz (configWith 3)).toView 0 "scribble") StatusWarning rfl).1,
   (CheckFuncHelper_returns scribbleMonitor 0 7 (zeroHealthz (configWith 3)).toView
      (setStatus (zeroHealthz (configWith 3)).toView 0 "scribble") StatusWarning rfl).2.1,
   (CheckFuncHelper_returns scribbleMonitor 0 7 (zeroHealthz (configWith 3)).toView
      (setStatus (zeroHealthz (configWith 3)).toView 0 "scribble") StatusWarning rfl).2.2.2
      scribbleMonitor (zeroHealthz (configWith 3)) "db" "x" clock7 rfl (by decide)
      (fun w p => ⟨_, rfl, rfl⟩)⟩

/-- C7: after `h.AddCheck(t, n, f)` the registry holds exactly one entry for `n`: `Details[n]`
is a newly allocated Component with Type `t`, Name `n`, empty Status (and Check) and zero
Time, and `checks[n]` is the wrapper `CheckFuncHelper f` bound to that component.  In both
maps the number of names is unchanged when `n` was a key and is one more otherwise, the
entries of the other names are unchanged, and so are the other components. -/
theorem AddCheck_registers (h : Healthz) (t n : String) (f : HealthMonitorFunc) :
    mapGet (AddCheck h t n f).Details n = some h.next ∧
    (AddCheck h t n f).heap h.next =
      { Typ := t, Name := n, Status := "", Check := "", Time := 0 } ∧
    mapGet (AddCheck h t n f).checks n = some (CheckFuncHelper f h.next) ∧
    (mapKeys (AddCheck h t n f).checks).count n = 1 ∧
    (mapKeys (AddCheck h t n f).Details).count n = 1 ∧
    (mapKeys (AddCheck h t n f).checks).length =
      (if n ∈ mapKeys h.checks then (mapKeys h.checks).length
       else (mapKeys h.checks).length + 1) ∧
    (mapKeys (AddCheck h t n f).Details).length =
      (if n ∈ mapKeys h.Details then (mapKeys h.Details).length
       else (mapKeys h.Details).length + 1) ∧
    (∀ m, m ≠ n → mapGet (AddCheck h t n f).checks m = mapGet h.checks m ∧
      mapGet (AddCheck h t n f).Details m = mapGet h.Details m) ∧
    (∀ p, p ≠ h.next → (AddCheck h t n f).heap p = h.heap p) ∧
    (AddCheck h t n f).Notes = h.Notes ∧ (AddCheck h t n f).Metadata = h.Metadata ∧
    (AddCheck h t n f).config = h.config := by
  have hlen : ∀ {α : Type} (m : AList (fun _ : String => α)) (a : α),
      (m.insert n a).keys.length =
        if n ∈ m.keys then m.keys.length else m.keys.length + 1 := by
    intro α m a
    rw [AList.keys_insert, List.length_cons]
    by_cases hm : n ∈ m.keys
    · rw [if_pos hm, List.length_erase_of_mem hm]
      have := List.length_pos_of_mem hm
      omega
    · rw [if_neg hm, List.erase_of_not_mem hm]
  refine ⟨?_, ?_, ?_, ?_, ?_, ?_, ?_, ?_, ?_, rfl, rfl, rfl⟩
  · simp [mapGet, AddCheck, AList.lookup_insert]
  · simp [AddCheck]
  · simp [mapGet, AddCheck, AList.lookup_insert]
  · exact List.count_eq_one_of_mem (AList.keys_nodup _)
      (by simp [mapKeys, AddCheck, AList.keys_insert])
  · exact List.count_eq_one_of_mem (AList.keys_nodup _)
      (by simp [mapKeys, AddCheck, AList.keys_insert])
  · simpa [mapKeys, AddCheck] using hlen (h.checks.getD ∅) (CheckFuncHelper f h.next)
  · simpa [mapKeys, AddCheck] using hlen (h.Details.getD ∅) h.next
  · intro m hm
    simp [mapGet, AddCheck, AList.lookup_insert_ne hm]
  · intro p hp
    simp [AddCheck, Function.update_noteq hp]

/-- C8: with `NotesCount >= 0`, a pass in which a registered check panics (the check called in
`i` wraps a monitor function that panics in the state it was called in, with any value, `nil`
too) completes without a panic, has called every registered check exactly once, and reports
the overall status "fail" with the code 409. -/
theorem HealthzHandler_isolates_panic (h : Healthz) (order : List String)
    (clock : String → Timestamp) (f : HealthMonitorFunc) (d : Ptr) (i : Invocation) (v' : View)
    (r : Option String) (hk : 0 ≤ h.config.NotesCount) (hperm : order.Perm (mapKeys h.checks))
    (hi : i ∈ (loopResult h order clock).trace)
    (hn : mapGet h.checks i.name = some (CheckFuncHelper f d))
    (hp : f i.before d = .panic r v') :
    ∃ h', HealthzHandler h order clock = .ok (StatusConflict, h') ∧
      h'.Status = "fail" ∧
      ((loopResult h order clock).trace.map Invocation.name).Perm (mapKeys h.checks) ∧
      ∀ c ∈ mapKeys h.checks,
        ((loopResult h order clock).trace.map Invocation.name).count c = 1 := by
  have hnames : (loopResult h order clock).trace.map Invocation.name = order := by
    have := runChecks_names h.checks clock order
      { status := StatusPass, v := h.toView, trace := [] }
      (fun c hc => hperm.mem_iff.mp hc)
    simpa [loopResult] using this
  have hres : i.result = StatusFail := by
    rcases runChecks_calls h.checks clock order
      { status := StatusPass, v := h.toView, trace := [] } i hi with h1 | ⟨check, h1, h2⟩
    · simp at h1
    · rw [hn] at h1
      cases h1
      rw [h2]
      exact CheckFuncHelper_panic_result f d (clock i.name) i.before v' r hp
  have hfail : (loopResult h order clock).status = StatusFail := by
    rw [loopResult_status, rollup_eq, if_pos]
    exact hres ▸ List.mem_map_of_mem Invocation.result hi
  have hok := HealthzHandler_ok h order clock hk
  rw [hfail, if_pos (by decide : StatusFail ≠ StatusPass)] at hok
  refine ⟨_, hok, rfl, ?_, ?_⟩
  · rw [hnames]
    exact hperm
  · intro c hc
    rw [hnames, hperm.count_eq]
    exact List.count_eq_one_of_mem (AList.keys_nodup _) hc

/-- C8 on a registry with a panicking check and a passing one. -/
theorem HealthzHandler_isolates_panic_witness :
    ∃ h', HealthzHandler
        (AddCheck (AddCheck (zeroHealthz (configWith 9)) "db" "x" panicMonitor)
          "cache" "y" passMonitor) ["x", "y"] clock7 = .ok (StatusConflict, h') ∧
      h'.Status = "fail" ∧ h'.Notes =
        ["Recovered from a panic caused by HealthMonitor x", "x fail", "y pass"] := by
  obtain ⟨h', h1, h2, -, -⟩ := HealthzHandler_isolates_panic
    (AddCheck (AddCheck (zeroHealthz (configWith 9)) "db" "x" panicMonitor)
      "cache" "y" passMonitor) ["x", "y"] clock7 panicMonitor 0
    { name := "x",
      before := (AddCheck (AddCheck (zeroHealthz (configWith 9)) "db" "x" panicMonitor)
        "cache" "y" passMonitor).toView,
      result := StatusFail }
    (AddCheck (AddCheck (zeroHealthz (configWith 9)) "db" "x" panicMonitor)
        "cache" "y" passMonitor).toView (some "boom")
    (by decide) (List.Perm.swap "y" "x" []) (List.mem_cons_self _ _) rfl rfl
  refine ⟨h', h1, h2, ?_⟩
  have h3 := h1.symm.trans (HealthzHandler_ok _ _ _ (by decide))
  injection h3 with h3
  injection h3 with _ h3
  rw [h3]
  rfl

/-- C9, as stated, fails.  With `NotesCount = 0` the one registered check "x" panics during
the pass, the pass reports "fail", and the Notes of the report are empty: the recovery
message is cut off with the rest.  With `NotesCount = 9`, where nothing is cut off: a check
"x" that panics with `panic(nil)`, for which `recover()` returns `nil`, leaves no recovery
message at all, and a check "x" that renames its component before it panics leaves the
message with the new name, not with "x". -/
theorem recovery_note_truncated :
    (∀ v d, panicMonitor v d = .panic (some "boom") v) ∧
    mapKeys (AddCheck (zeroHealthz (configWith 0)) "db" "x" panicMonitor).checks = ["x"] ∧
    (∃ h', HealthzHandler (AddCheck (zeroHealthz (configWith 0)) "db" "x" panicMonitor)
        ["x"] clock7 = .ok (StatusConflict, h') ∧
      h'.Status = "fail" ∧ h'.Notes = [] ∧
      "Recovered from a panic caused by HealthMonitor x" ∉ h'.Notes) ∧
    (∀ v d, nilPanicMonitor v d = .panic none v) ∧
    (∃ h', HealthzHandler (AddCheck (zeroHealthz (configWith 9)) "db" "x" nilPanicMonitor)
        ["x"] clock7 = .ok (StatusConflict, h') ∧
      h'.Status = "fail" ∧ h'.Notes = ["x fail"] ∧
      "Recovered from a panic caused by HealthMonitor x" ∉ h'.Notes) ∧
    (∃ h', HealthzHandler (AddCheck (zeroHealthz (configWith 9)) "db" "x" renameMonitor)
        ["x"] clock7 = .ok (StatusConflict, h') ∧
      h'.Status = "fail" ∧
      h'.Notes = ["Recovered from a panic caused by HealthMonitor renamed", "x fail"] ∧
      "Recovered from a panic caused by HealthMonitor x" ∉ h'.Notes) :=
  ⟨fun _ _ => rfl, rfl,
   ⟨_, rfl, rfl, rfl, by
      show "Recovered from a panic caused by HealthMonitor x" ∉ ([] : List String)
      simp⟩,
   fun _ _ => rfl,
   ⟨_, rfl, rfl, rfl, by
      show "Recovered from a panic caused by HealthMonitor x" ∉ ["x fail"]
      decide⟩,
   ⟨_, rfl, rfl, rfl, by
      show "Recovered from a panic caused by HealthMonitor x" ∉
        ["Recovered from a panic caused by HealthMonitor renamed", "x fail"]
      decide⟩⟩

/-- C9, amended: if a registered check panics during a pass with a value that `recover()`
returns (not `nil`), leaving its component with the Name `n` (the check called in `i` wraps
a monitor function `f` that does so in the state it was called in), and the checks only
append notes, then the Notes before truncation contain the recovery message
"Recovered from a panic caused by HealthMonitor n"; the report of a pass with
`NotesCount >= 0` holds their first `NotesCount` entries, and so the message when nothing is
cut off. -/
theorem recovery_note_before_truncation (h : Healthz) (order : List String)
    (clock : String → Timestamp) (f : HealthMonitorFunc) (d : Ptr) (i : Invocation) (v' : View)
    (r n : String) (hk : 0 ≤ h.config.NotesCount)
    (hi : i ∈ (loopResult h order clock).trace)
    (hn : mapGet h.checks i.name = some (CheckFuncHelper f d))
    (hp : f i.before d = .panic (some r) v') (hname : (v'.heap d).Name = n)
    (happ : ∀ c check, mapGet h.checks c = some check → AppendsNotes check) :
    "Recovered from a panic caused by HealthMonitor " ++ n
      ∈ (loopResult h order clock).v.Notes ∧
    ∃ h', HealthzHandler h order clock = .ok (StatusConflict, h') ∧
      h'.Notes = (loopResult h order clock).v.Notes.take h.config.NotesCount.toNat ∧
      (((loopResult h order clock).v.Notes.length : Int) ≤ h.config.NotesCount →
        "Recovered from a panic caused by HealthMonitor " ++ n ∈ h'.Notes) := by
  have hmem : "Recovered from a panic caused by HealthMonitor " ++ n
      ∈ (loopResult h order clock).v.Notes := by
    rcases (runChecks_notes h.checks clock happ order
      { status := StatusPass, v := h.toView, trace := [] }).2 i hi with h1 | ⟨check, added, h1, h2⟩
    · simp at h1
    · rw [hn] at h1
      cases h1
      show _ ∈ (runChecks h.checks clock order _).v.Notes
      rw [h2, CheckFuncHelper_of_panic f d (clock i.name) i.before v' r hp]
      simp [setTime, setStatus, Note, hname, ← recoveryNote_eq, recoveryNote]
  have hres : i.result = StatusFail := by
    rcases runChecks_calls h.checks clock order
      { status := StatusPass, v := h.toView, trace := [] } i hi with h1 | ⟨check, h1, h2⟩
    · simp at h1
    · rw [hn] at h1
      cases h1
      rw [h2]
      exact CheckFuncHelper_panic_result f d (clock i.name) i.before v' (some r) hp
  have hfail : (loopResult h order clock).status = StatusFail := by
    rw [loopResult_status, rollup_eq, if_pos]
    exact hres ▸ List.mem_map_of_mem Invocation.result hi
  have hok := HealthzHandler_ok h order clock hk
  rw [hfail, if_pos (by decide : StatusFail ≠ StatusPass)] at hok
  refine ⟨hmem, _, hok, rfl, ?_⟩
  intro h4
  show _ ∈ List.take _ _
  rw [List.take_of_length_le (by omega)]
  exact hmem

/-- C9, amended, on a registry with `NotesCount = 9` whose one check "x" panics with a value:
the note is there before the cut and in the report. -/
theorem recovery_note_before_truncation_witness :
    "Recovered from a panic caused by HealthMonitor " ++ "x"
      ∈ (loopResult (AddCheck (zeroHealthz (configWith 9)) "db" "x" panicMonitor)
        ["x"] clock7).v.Notes ∧
    ∃ h', HealthzHandler (AddCheck (zeroHealthz (configWith 9)) "db" "x" panicMonitor)
        ["x"] clock7 = .ok (StatusConflict, h') ∧
      "Recovered from a panic caused by HealthMonitor " ++ "x" ∈ h'.Notes := by
  obtain ⟨h1, h', h2, -, h3⟩ := recovery_note_before_truncation
    (AddCheck (zeroHealthz (configWith 9)) "db" "x" panicMonitor) ["x"] clock7 panicMonitor 0
    { name := "x",
      before := (AddCheck (zeroHealthz (configWith 9)) "db" "x" panicMonitor).toView,
      result := StatusFail }
    (AddCheck (zeroHealthz (configWith 9)) "db" "x" panicMonitor).toView "boom" "x"
    (by decide) (List.mem_cons_self _ _) rfl rfl rfl
    (fun c check hc => by
      rw [checks_of_single (configWith 9) "db" "x" panicMonitor c check hc]
      exact CheckFuncHelper_appends panicMonitor 0
        (fun v => ⟨[], Or.inr ⟨_, v, rfl, by simp⟩⟩))
  exact ⟨h1, h', h2, h3 (by decide)⟩

/-- C10: the status the loop of `HealthzHandler` ends with does not depend on the order of
the check results: a list of results and any permutation of it roll up to the same status,
and so do two passes whose results are these lists. -/
theorem rollup_perm (l₁ l₂ : List Status) (hp : l₁.Perm l₂) :
    rollup l₁ = rollup l₂ ∧
    Status.String (rollup l₁) = Status.String (rollup l₂) ∧
    (∀ (h₁ h₂ : Healthz) (o₁ o₂ : List String) (c₁ c₂ : String → Timestamp),
      passResults h₁ o₁ c₁ = l₁ → passResults h₂ o₂ c₂ = l₂ →
      (loopResult h₁ o₁ c₁).status = (loopResult h₂ o₂ c₂).status) := by
  have h : rollup l₁ = rollup l₂ := by
    simp only [rollup_eq, hp.mem_iff]
  refine ⟨h, by rw [h], ?_⟩
  intro h₁ h₂ o₁ o₂ c₁ c₂ e₁ e₂
  rw [loopResult_status, loopResult_status, e₁, e₂, h]

/-- C10 on a Fail and a Pass, in both orders. -/
theorem rollup_perm_witness :
    Status.String (rollup [StatusFail, StatusPass]) = "fail" ∧
    Status.String (rollup [StatusPass, StatusFail]) = "fail" ∧
    rollup [StatusFail, StatusPass] = rollup [StatusPass, StatusFail] :=
  ⟨by decide, by decide,
   (rollup_perm [StatusFail, StatusPass] [StatusPass, StatusFail]
      (List.Perm.swap StatusPass StatusFail [])).1⟩

/-- C11: with the identity file as explicit state and no file operation failing,
`PersistentServiceID` returns the bytes `c` of a non-empty file and leaves the files as they
are; on an empty or absent file it returns the newly generated identifier
`g = "api" ++ uuid₁ ++ uuid₂` (dashes removed), leaves the file holding exactly `g` and the
other files as they are; and a second call on the resulting files returns `g` again,
whatever `uuid.New()` gives then. -/
theorem PersistentServiceID_stable (file u₁ u₂ u₃ u₄ : String) (fs : Files) :
    (∀ c, fs file = some c → c.length ≠ 0 →
      PersistentServiceID file u₁ u₂ noFaults fs = .ok (c, fs) ∧
      PersistentServiceID file u₃ u₄ noFaults fs = .ok (c, fs)) ∧
    (fs file = none ∨ fs file = some "" →
      ∃ fs', PersistentServiceID file u₁ u₂ noFaults fs =
          .ok ("api" ++ removeDashes u₁ ++ removeDashes u₂, fs') ∧
        fs' file = some ("api" ++ removeDashes u₁ ++ removeDashes u₂) ∧
        (∀ p, p ≠ file → fs' p = fs p) ∧
        PersistentServiceID file u₃ u₄ noFaults fs' =
          .ok ("api" ++ removeDashes u₁ ++ removeDashes u₂, fs')) := by
  refine ⟨fun c hc hlen => ⟨PersistentServiceID_of_bytes file u₁ u₂ c fs hc hlen,
    PersistentServiceID_of_bytes file u₃ u₄ c fs hc hlen⟩, ?_⟩
  intro he
  have hold : (fs file).getD "" = "" := by
    rcases he with he | he <;> simp [he]
  have hg : randomUUID ("api" ++ removeDashes u₁) u₂ =
      "api" ++ removeDashes u₁ ++ removeDashes u₂ := rfl
  have hlen := randomUUID_length u₁ u₂
  rw [hg] at hlen
  refine ⟨Function.update (Function.update fs file (some ""))
    file (some ("api" ++ removeDashes u₁ ++ removeDashes u₂)), ?_, ?_, ?_, ?_⟩
  · simp [PersistentServiceID, noFaults, hold, hg, writeAtStart_empty]
  · simp
  · intro p hp
    simp [Function.update_noteq hp]
  · exact PersistentServiceID_of_bytes file u₃ u₄ _ _ (by simp) hlen

/-- C11 on an absent file `id`: the identifier generated from two uuids, which the second
call returns again. -/
theorem PersistentServiceID_stable_witness :
    ∃ fs', PersistentServiceID "id" uuidA uuidB noFaults noFiles =
        .ok ("api" ++ removeDashes uuidA ++ removeDashes uuidB, fs') ∧
      fs' "id" = some "api123e4567e89b42d3a4564266141740009f8e7d6c5b4a4c3d8e2f0a1b2c3d4e5f" ∧
      PersistentServiceID "id" uuidB uuidA noFaults fs' =
        .ok ("api" ++ removeDashes uuidA ++ removeDashes uuidB, fs') := by
  obtain ⟨fs', h1, h2, -, h4⟩ :=
    (PersistentServiceID_stable "id" uuidA uuidB uuidB uuidA noFiles).2 (Or.inl rfl)
  exact ⟨fs', h1, h2.trans (by decide), h4⟩

/-- C12: the code does not do what the claim says when the read fails.  On the file `id`
with the bytes "abc", with `os.OpenFile` succeeding and `ioutil.ReadAll` failing before any
byte is read, `PersistentServiceID` does not panic: it generates a new identifier, writes it
over the file and returns it; when the read fails after two bytes it returns "ab".  A failed
open and a failed write do panic. -/
theorem PersistentServiceID_ignores_read_error :
    (∃ fs', PersistentServiceID "id" uuidA uuidB
        { openFails := false, readFails := some 0, writeFails := false } (oneFile "abc") =
        .ok ("api123e4567e89b42d3a4564266141740009f8e7d6c5b4a4c3d8e2f0a1b2c3d4e5f", fs') ∧
      fs' "id" = some "api123e4567e89b42d3a4564266141740009f8e7d6c5b4a4c3d8e2f0a1b2c3d4e5f") ∧
    (∃ fs', PersistentServiceID "id" uuidA uuidB
        { openFails := false, readFails := some 2, writeFails := false } (oneFile "abc") =
        .ok ("ab", fs') ∧ fs' "id" = some "abc") ∧
    PersistentServiceID "id" uuidA uuidB
        { openFails := true, readFails := none, writeFails := false } (oneFile "abc") =
        .error "Healthz unable to open file" ∧
    PersistentServiceID "id" uuidA uuidB
        { openFails := false, readFails := none, writeFails := true } noFiles =
        .error "Healthz unable to write to file" :=
  ⟨⟨_, rfl, rfl⟩, ⟨_, rfl, rfl⟩, rfl, rfl⟩

/-- C13: `Get(k)` is the empty string when `k` is not a key of Metadata (in particular when
the map is still nil); after `Set(k, v)`, `Get(k)` is `v`; and `Set(k, v)` leaves `Get(k')`
as it was for every key `k'` other than `k` as a string, so that keys that differ in letter
case only are distinct.  `Set` changes nothing but Metadata. -/
theorem Get_Set (h : Healthz) (k k' v : String) :
    (h.Metadata = none → h.Get k = "") ∧
    (mapGet h.Metadata k = none → h.Get k = "") ∧
    (h.Set k v).Get k = v ∧
    (k' ≠ k → (h.Set k v).Get k' = h.Get k') ∧
    (h.Set k v).Notes = h.Notes ∧ (h.Set k v).Details = h.Details ∧
    (h.Set k v).Status = h.Status := by
  refine ⟨?_, ?_, ?_, ?_, rfl, rfl, rfl⟩
  · intro hm
    simp [Healthz.Get, hm]
  · intro hm
    cases hmd : h.Metadata with
    | none => simp [Healthz.Get, hmd]
    | some m =>
      rw [hmd] at hm
      simp only [mapGet, Option.getD_some] at hm
      simp [Healthz.Get, hmd, hm]
  · simp [Healthz.Get, Healthz.Set, AList.lookup_insert]
  · intro hne
    cases hmd : h.Metadata with
    | none =>
      simp only [Healthz.Get, Healthz.Set, hmd]
      rw [AList.lookup_insert_ne hne, AList.lookup_empty]
    | some m =>
      simp only [Healthz.Get, Healthz.Set, hmd]
      rw [AList.lookup_insert_ne hne]

/-- C13 on a registry with a nil Metadata: a key that was not set, a key that was, and the
same key in another letter case. -/
theorem Get_Set_witness :
    (zeroHealthz (configWith 3)).Get "service_id" = "" ∧
    ((zeroHealthz (configWith 3)).Set "service_id" "api1").Get "service_id" = "api1" ∧
    ((zeroHealthz (configWith 3)).Set "service_id" "api1").Get "Service_ID" = "" :=
  ⟨(Get_Set (zeroHealthz (configWith 3)) "service_id" "Service_ID" "api1").1 rfl,
   (Get_Set (zeroHealthz (configWith 3)) "service_id" "Service_ID" "api1").2.2.1,
   ((Get_Set (zeroHealthz (configWith 3)) "service_id" "Service_ID" "api1").2.2.2.1
      (by decide)).trans rfl⟩

/-- C14: `String()` gives "pass" for `StatusPass`, "fail" for `StatusFail`, "warn" for
`StatusWarning` and "unknown" for every other integer; the three constants are pairwise
distinct and `String()` is injective on them. -/
theorem Status_String_table (s : Status) :
    Status.String StatusPass = "pass" ∧
    Status.String StatusFail = "fail" ∧
    Status.String StatusWarning = "warn" ∧
    (s ≠ StatusPass → s ≠ StatusFail → s ≠ StatusWarning → Status.String s = "unknown") ∧
    StatusPass ≠ StatusFail ∧ StatusPass ≠ StatusWarning ∧ StatusFail ≠ StatusWarning ∧
    (∀ a b : Status, (a = StatusPass ∨ a = StatusFail ∨ a = StatusWarning) →
      (b = StatusPass ∨ b = StatusFail ∨ b = StatusWarning) →
      Status.String a = Status.String b → a = b) := by
  refine ⟨by decide, by decide, by decide, ?_, by decide, by decide, by decide, ?_⟩
  · intro h1 h2 h3
    simp [Status.String, h1, h2, h3]
  · intro a b ha hb
    rcases ha with ha | ha | ha <;> rcases hb with hb | hb | hb <;> subst ha <;> subst hb <;>
      decide

/-- C14 on the integers 7 and -1, which are none of the constants. -/
theorem Status_String_table_witness :
    Status.String 7 = "unknown" ∧ Status.String (-1) = "unknown" :=
  ⟨(Status_String_table 7).2.2.2.1 (by decide) (by decide) (by decide),
   (Status_String_table (-1)).2.2.2.1 (by decide) (by decide) (by decide)⟩

/-- C15: for every sequence of check results, also with results that are none of Pass, Fail,
Warning, the status string of the rollup is "pass", "fail" or "warn" and not "unknown", and
this is the Status a pass with these results (`NotesCount >= 0`) writes into the report. -/
theorem overall_status_known (results : List Status) :
    Status.String (rollup results) ∈ ["pass", "fail", "warn"] ∧
    Status.String (rollup results) ≠ "unknown" ∧
    (∀ (h : Healthz) (order : List String) (clock : String → Timestamp),
      0 ≤ h.config.NotesCount → passResults h order clock = results →
      ∃ code h', HealthzHandler h order clock = .ok (code, h') ∧
        h'.Status ∈ ["pass", "fail", "warn"] ∧ h'.Status ≠ "unknown") := by
  have h1 : Status.String (rollup results) ∈ ["pass", "fail", "warn"] := by
    rcases rollup_enum results with h | h | h <;> rw [h] <;> decide
  have h2 : Status.String (rollup results) ≠ "unknown" := by
    rcases rollup_enum results with h | h | h <;> rw [h] <;> decide
  refine ⟨h1, h2, ?_⟩
  intro h order clock hk hres
  refine ⟨_, _, HealthzHandler_ok h order clock hk, ?_, ?_⟩
  · simp only [loopResult_status, hres]
    exact h1
  · simp only [loopResult_status, hres]
    exact h2

/-- C15 on the results 7 and -3, and on a registry whose one check returns 7. -/
theorem overall_status_known_witness :
    Status.String (rollup [7, -3]) ∈ ["pass", "fail", "warn"] ∧
    ∃ code h', HealthzHandler (AddCheck (zeroHealthz (configWith 3)) "db" "x" strangeMonitor)
        ["x"] clock7 = .ok (code, h') ∧
      h'.Status ∈ ["pass", "fail", "warn"] ∧ h'.Status ≠ "unknown" :=
  ⟨(overall_status_known [7, -3]).1,
   (overall_status_known [7]).2.2
     (AddCheck (zeroHealthz (configWith 3)) "db" "x" strangeMonitor) ["x"] clock7
     (by decide) rfl⟩

/-- C16: the code does not do what the claim says when the monitor function returns.  The
wrapper of a monitor function that returns `StatusPass`, called at time 7 on a component
with the zero Time, leaves the Time at zero; the wrapper of a monitor function that panics,
called at the same time on the same component, sets the Time to 7. -/
theorem CheckFuncHelper_time_on_return :
    ((CheckFuncHelper passMonitor 0 7 (zeroHealthz (configWith 3)).toView).2.heap 0).Time = 0 ∧
    ((CheckFuncHelper passMonitor 0 7 (zeroHealthz (configWith 3)).toView).2.heap 0).Time ≠ 7 ∧
    ((CheckFuncHelper passMonitor 0 7 (zeroHealthz (configWith 3)).toView).2.heap 0).Status
      = "pass" ∧
    ((CheckFuncHelper panicMonitor 0 7 (zeroHealthz (configWith 3)).toView).2.heap 0).Time = 7 :=
  ⟨rfl, by decide, rfl, rfl⟩

/-- C18: in a registry whose checks wrap monitor functions that return and leave Notes alone,
a pass that visits the registered names appends to the Notes it finds, before truncation,
exactly one note per call, `n ++ " " ++ result.String()` in the order of the calls; the calls
are one per registered name, so there are as many new notes as registered checks, and the
notes from before the pass stay in front. -/
theorem pass_notes (h : Healthz) (order : List String) (clock : String → Timestamp)
    (hperm : order.Perm (mapKeys h.checks))
    (hq : ∀ c check, mapGet h.checks c = some check →
      ∃ f d, check = CheckFuncHelper f d ∧ Quiet f d) :
    (loopResult h order clock).v.Notes =
      h.Notes ++ (loopResult h order clock).trace.map noteOf ∧
    ((loopResult h order clock).trace.map Invocation.name).Perm (mapKeys h.checks) ∧
    ((loopResult h order clock).trace.map noteOf).length = (mapKeys h.checks).length ∧
    (∀ i ∈ (loopResult h order clock).trace,
      noteOf i = i.name ++ " " ++ Status.String i.result ∧ i.name ∈ mapKeys h.checks) := by
  obtain ⟨calls, h1, h2⟩ := runChecks_quiet h.checks clock hq order
    { status := StatusPass, v := h.toView, trace := [] }
  have hnames : (loopResult h order clock).trace.map Invocation.name = order := by
    have := runChecks_names h.checks clock order
      { status := StatusPass, v := h.toView, trace := [] }
      (fun c hc => hperm.mem_iff.mp hc)
    simpa [loopResult] using this
  have htrace : (loopResult h order clock).trace = calls := by
    simpa [loopResult] using h1
  refine ⟨?_, ?_, ?_, ?_⟩
  · rw [htrace]
    exact h2
  · rw [hnames]
    exact hperm
  · rw [List.length_map, ← List.length_map (loopResult h order clock).trace Invocation.name,
      hnames]
    exact hperm.length_eq
  · intro i hi
    refine ⟨rfl, hperm.mem_iff.mp ?_⟩
    rw [← hnames]
    exact List.mem_map_of_mem Invocation.name hi

/-- C18 on a registry with the checks "x" (passing) and "y" (warning), that holds an old
note. -/
theorem pass_notes_witness :
    (loopResult
      { AddCheck (AddCheck (zeroHealthz (configWith 9)) "db" "x" passMonitor)
          "cache" "y" warnMonitor with Notes := ["old"] }
      ["x", "y"] clock7).v.Notes = ["old", "x pass", "y warn"] := by
  have h := (pass_notes
    { AddCheck (AddCheck (zeroHealthz (configWith 9)) "db" "x" passMonitor)
        "cache" "y" warnMonitor with Notes := ["old"] }
    ["x", "y"] clock7 (List.Perm.swap "y" "x" [])
    (fun c check hc => by
      by_cases hy : c = "y"
      · subst hy
        exact ⟨warnMonitor, 1, (Option.some.inj hc).symm, fun v => ⟨_, v, rfl, rfl⟩⟩
      · by_cases hx : c = "x"
        · subst hx
          exact ⟨passMonitor, 0, (Option.some.inj hc).symm, fun v => ⟨_, v, rfl, rfl⟩⟩
        · rw [mapGet, AddCheck] at hc
          simp only [Option.getD_some] at hc
          rw [AList.lookup_insert_ne hy, AddCheck] at hc
          simp only [Option.getD_some] at hc
          rw [AList.lookup_insert_ne hx] at hc
          simp [zeroHealthz] at hc)).1
  rw [h]
  rfl

/-- C19: in a registry obtained from an empty `Healthz` by calls of `AddCheck`, `Set` and
`Note`, the names with a callable in `checks` are the names with a record in Details, and
the record of a name `n` has the Name `n`; a pass (`NotesCount >= 0`) whose checks wrap
monitor functions that leave the Details map and the Name fields alone keeps this. -/
theorem registry_consistent (h : Healthz) (hr : Reachable h) :
    Consistent h ∧
    (∀ (order : List String) (clock : String → Timestamp), 0 ≤ h.config.NotesCount →
      (∀ c check, mapGet h.checks c = some check →
        ∃ f d, check = CheckFuncHelper f d ∧ KeepsNames f d) →
      ∃ code h', HealthzHandler h order clock = .ok (code, h') ∧ Consistent h') := by
  have hc := (Reachable_inv h hr).1
  refine ⟨hc, ?_⟩
  intro order clock hk hkeep
  obtain ⟨h1, h2⟩ := runChecks_keeps h.checks clock hkeep order
    { status := StatusPass, v := h.toView, trace := [] }
  refine ⟨_, _, HealthzHandler_ok h order clock hk, ?_, ?_⟩
  · intro n
    show n ∈ mapKeys h.checks ↔ n ∈ mapKeys (loopResult h order clock).v.Details
    rw [show (loopResult h order clock).v.Details = h.Details from h1]
    exact hc.1 n
  · intro n p hp
    have hp' : mapGet (loopResult h order clock).v.Details n = some p := hp
    rw [show (loopResult h order clock).v.Details = h.Details from h1] at hp'
    show ((loopResult h order clock).v.heap p).Name = n
    rw [show ((loopResult h order clock).v.heap p).Name = (h.heap p).Name from h2 p]
    exact hc.2 n p hp'

/-- C19 on the registry built by `Set`, two calls of `AddCheck` for the name "x" and one
for "y", and `Note`. -/
theorem registry_consistent_witness :
    Consistent (((AddCheck (AddCheck (AddCheck ((zeroHealthz (configWith 3)).Set "k" "v")
      "db" "x" passMonitor) "db" "x" panicMonitor) "cache" "y" warnMonitor).Note ["n"])) :=
  (registry_consistent _
    (Reachable.note ["n"] (Reachable.addCheck "cache" "y" warnMonitor
      (Reachable.addCheck "db" "x" panicMonitor (Reachable.addCheck "db" "x" passMonitor
        (Reachable.set "k" "v" (Reachable.zero (configWith 3)))))))).1

/-- C20: `HealthzHandler` panics at the slice `h.Notes[:NotesCount]` if and only if
`NotesCount` is negative.  For `NotesCount >= 0` the slice is taken only when
`NotesCount < len(Notes)`, and the bound is then valid; for `NotesCount < 0` the guard
`len(Notes) > NotesCount` holds for every length and the bound is invalid. -/
theorem truncation_panics_iff (h : Healthz) (order : List String)
    (clock : String → Timestamp) :
    ((∃ e, HealthzHandler h order clock = .error e) ↔ h.config.NotesCount < 0) ∧
    (0 ≤ h.config.NotesCount → ∀ len cap : Nat, len ≤ cap →
      (len : Int) > h.config.NotesCount → sliceBoundValid cap h.config.NotesCount) ∧
    (h.config.NotesCount < 0 → ∀ len cap : Nat,
      (len : Int) > h.config.NotesCount ∧ ¬ sliceBoundValid cap h.config.NotesCount) := by
  refine ⟨⟨?_, ?_⟩, ?_, ?_⟩
  · rintro ⟨e, he⟩
    by_contra hk
    rw [HealthzHandler_ok h order clock (by omega)] at he
    cases he
  · intro hk
    refine ⟨"slice bounds out of range", ?_⟩
    have hg : ((loopResult h order clock).v.Notes.length : Int) > h.config.NotesCount := by
      omega
    simp only [HealthzHandler, hg, hk, if_true]
  · intro hk len cap hle hg
    exact ⟨hk, by omega⟩
  · intro hk len cap
    exact ⟨by omega, fun hv => by have := hv.1; omega⟩

/-- C20 on a registry without notes and `NotesCount = -1`, and on the same registry with
`NotesCount = 0`. -/
theorem truncation_panics_iff_witness :
    HealthzHandler (zeroHealthz (configWith (-1))) [] clock7 =
      .error "slice bounds out of range" ∧
    ¬ ∃ e, HealthzHandler (zeroHealthz (configWith 0)) [] clock7 = .error e :=
  ⟨rfl, fun he => absurd
    ((truncation_panics_iff (zeroHealthz (configWith 0)) [] clock7).1.mp he) (by decide)⟩

end GinHealthz
